import Mathlib

/-!
Verification of the FireHydrant webhook subsystem: subscription
reconciliation (`CompareConfig`, `Merge`, `findOrCreateWebhook`),
HMAC-SHA256 signature verification (`verifyWebhookSignature`), and the
incident event filter state machine (`HandleWebhook`, `normalizeIncident`,
`extractSeveritySlug`, `buildIncidentPayload`).

The definitions below are a shallow embedding of the Go sources in
`pkg/integrations/firehydrant`.  Go strings become `String` where only
equality matters and `List Nat` (byte values) where the raw wire bytes
matter; Go `map[string]any` records become association lists over a
JSON-like `Value` type; fallible calls return `Except`.  All
definitions are listed first, followed by the theorems about them.
-/

set_option autoImplicit false

namespace FireHydrant

/-- JSON-like values, the shallow embedding of Go `any` as it appears in
decoded webhook payloads (`map[string]any`). -/
inductive Value where
  | str : String → Value
  | num : Int → Value
  | bool : Bool → Value
  | obj : List (String × Value) → Value
  | list : List Value → Value
  | null : Value

/-- A Go `map[string]any` record, embedded as an association list. -/
abbrev RecordMap := List (String × Value)

/-- Lookup of a key in a record, the embedding of Go `m[k]` with its
`ok` flag (`none` = key absent). -/
def lookupKey (m : RecordMap) (k : String) : Option Value :=
  (m.find? (fun p => p.1 == k)).map (·.2)

/-- Map write `m[k] = v`.  Overwrites the first binding of `k` when
present, appends otherwise; keeps association-list keys unique when the
input's are. -/
def setKey (m : RecordMap) (k : String) (v : Value) : RecordMap :=
  match m with
  | [] => [(k, v)]
  | (k', v') :: rest =>
    if k' == k then (k, v) :: rest else (k', v') :: setKey rest k v

/-! ## Subscription reconciler (`webhook_handler.go`)

`WebhookConfiguration`, `subscriptionsSubsetOrEqual`, `CompareConfig`
and `Merge`, in the successfully-decoded case (the claims under study
quantify over configurations that decode successfully, so the
`mapstructure` decoding layer is dropped and the functions act directly
on decoded configurations). -/

/-- `WebhookConfiguration` from `webhook_handler.go`: the subscription
scope of one webhook configuration. -/
structure WebhookConfiguration where
  subscriptions : List String
deriving Repr, DecidableEq

/-- `subscriptionsSubsetOrEqual(a, b)`: every element of `a` occurs in
`b`. -/
def subscriptionsSubsetOrEqual (a b : List String) : Bool :=
  a.all (fun x => b.contains x)

/-- `CompareConfig(a, b)` (decoded case): true iff either scope is a
subset of the other. -/
def CompareConfig (a b : WebhookConfiguration) : Bool :=
  subscriptionsSubsetOrEqual a.subscriptions b.subscriptions ||
    subscriptionsSubsetOrEqual b.subscriptions a.subscriptions

/-- `Merge(current, requested)` (decoded case): expand to the requested
scope exactly when the current scope is a strict subset of it. -/
def Merge (current requested : WebhookConfiguration) :
    WebhookConfiguration × Bool :=
  if subscriptionsSubsetOrEqual current.subscriptions requested.subscriptions &&
      !subscriptionsSubsetOrEqual requested.subscriptions current.subscriptions then
    ({ current with subscriptions := requested.subscriptions }, true)
  else
    (current, false)

/-! ## Upstream webhook sync (`findOrCreateWebhook` in `webhook_handler.go`)

The FireHydrant REST client is embedded as a record of the outcomes of
its three upstream calls; `findOrCreateWebhook` sequences them exactly
as the Go function does.  Note the Go source reads
`webhooks, err := client.ListWebhooks(); if err == nil { ... }` and then
unconditionally falls through to `client.CreateWebhook` — both a listing
error and an absent matching webhook reach the create call. -/

/-- A FireHydrant webhook as returned by the upstream API. -/
structure Webhook where
  id : String
  url : String
  secret : String
  subscriptions : List String
deriving Repr, DecidableEq

/-- The upstream client: outcome of `ListWebhooks`, and outcome of
`UpdateWebhook` / `CreateWebhook` as functions of their arguments. -/
structure Client where
  listWebhooks : Except String (List Webhook)
  updateWebhook : String → String → List String → Except String Webhook
  createWebhook : String → String → List String → Except String Webhook

/-- `findWebhookByURL`: first webhook whose URL matches. -/
def findWebhookByURL (webhooks : List Webhook) (url : String) : Option Webhook :=
  webhooks.find? (fun webhook => webhook.url == url)

/-- `mergeSubscriptions`: copy `current`, append each requested
subscription not already present, then sort. -/
def mergeSubscriptions (current requested : List String) : List String :=
  let merged := requested.foldl
    (fun acc sub => if acc.contains sub then acc else acc ++ [sub]) current
  merged.mergeSort (fun a b => a ≤ b)

/-- `subscriptionsEqual`: equality of subscription lists up to order,
decided by sorting both copies. -/
def subscriptionsEqual (a b : List String) : Bool :=
  a.mergeSort (fun x y => x ≤ y) == b.mergeSort (fun x y => x ≤ y)

/-- The tail of `findOrCreateWebhook`: the `client.CreateWebhook` call
and its error wrapping, reached both when listing failed and when no
existing webhook matched the URL. -/
def createWebhookCall (client : Client) (webhookURL secret : String)
    (subscriptions : List String) : Except String Webhook :=
  match client.createWebhook webhookURL secret subscriptions with
  | .ok webhook => .ok webhook
  | .error e => .error ("error creating webhook: " ++ e)

/-- `findOrCreateWebhook`: list, reuse/update a webhook with a matching
URL, otherwise (including when the listing call itself failed) create a
new one. -/
def findOrCreateWebhook (client : Client) (webhookURL secret : String)
    (subscriptions : List String) : Except String Webhook :=
  match client.listWebhooks with
  | .ok webhooks =>
    match findWebhookByURL webhooks webhookURL with
    | some webhook =>
      let merged := mergeSubscriptions webhook.subscriptions subscriptions
      if subscriptionsEqual webhook.subscriptions merged then .ok webhook
      else
        match client.updateWebhook webhook.id webhookURL merged with
        | .ok updated => .ok updated
        | .error e => .error ("error updating webhook: " ++ e)
    | none => createWebhookCall client webhookURL secret subscriptions
  | .error _ => createWebhookCall client webhookURL secret subscriptions

/-! ## HMAC-SHA256 and signature verification (`on_incident.go`)

The Go code calls `crypto/hmac` with `crypto/sha256` and hex-encodes the
tag with `fmt.Sprintf("%x", ...)`; SHA-256 and HMAC are embedded in
full below on byte lists (`List Nat`, each entry a byte value), with
32-bit words as `Nat` reduced `% 2^32`. -/

/-- 32-bit truncation. -/
def w32 (x : Nat) : Nat := x % 4294967296

/-- 32-bit right rotation. -/
def rotr (n x : Nat) : Nat := w32 ((x >>> n) ||| (x <<< (32 - n)))

/-- 32-bit complement. -/
def bnot32 (x : Nat) : Nat := x ^^^ 4294967295

/-- SHA-256 `Σ₀`. -/
def bigSigma0 (x : Nat) : Nat := (rotr 2 x) ^^^ (rotr 13 x) ^^^ (rotr 22 x)

/-- SHA-256 `Σ₁`. -/
def bigSigma1 (x : Nat) : Nat := (rotr 6 x) ^^^ (rotr 11 x) ^^^ (rotr 25 x)

/-- SHA-256 `σ₀`. -/
def smallSigma0 (x : Nat) : Nat := (rotr 7 x) ^^^ (rotr 18 x) ^^^ (x >>> 3)

/-- SHA-256 `σ₁`. -/
def smallSigma1 (x : Nat) : Nat := (rotr 17 x) ^^^ (rotr 19 x) ^^^ (x >>> 10)

/-- SHA-256 `Ch`. -/
def ch (x y z : Nat) : Nat := (x &&& y) ^^^ (bnot32 x &&& z)

/-- SHA-256 `Maj`. -/
def maj (x y z : Nat) : Nat := (x &&& y) ^^^ (x &&& z) ^^^ (y &&& z)

/-- The SHA-256 round constants (FIPS 180-4, in decimal). -/
def K : List Nat :=
  [1116352408, 1899447441, 3049323471, 3921009573,
   961987163, 1508970993, 2453635748, 2870763221,
   3624381080, 310598401, 607225278, 1426881987,
   1925078388, 2162078206, 2614888103, 3248222580,
   3835390401, 4022224774, 264347078, 604807628,
   770255983, 1249150122, 1555081692, 1996064986,
   2554220882, 2821834349, 2952996808, 3210313671,
   3336571891, 3584528711, 113926993, 338241895,
   666307205, 773529912, 1294757372, 1396182291,
   1695183700, 1986661051, 2177026350, 2456956037,
   2730485921, 2820302411, 3259730800, 3345764771,
   3516065817, 3600352804, 4094571909, 275423344,
   430227734, 506948616, 659060556, 883997877,
   958139571, 1322822218, 1537002063, 1747873779,
   1955562222, 2024104815, 2227730452, 2361852424,
   2428436474, 2756734187, 3204031479, 3329325298]

/-- SHA-256 padding: append `0x80`, zero bytes to 56 mod 64, then the
bit length as 8 big-endian bytes. -/
def pad (msg : List Nat) : List Nat :=
  let L := msg.length
  let zeros := (120 - ((L + 1) % 64)) % 64
  let lenBytes := (List.range 8).map (fun i => ((L * 8) >>> (8 * (7 - i))) % 256)
  msg ++ [128] ++ List.replicate zeros 0 ++ lenBytes

/-- Group bytes into 32-bit big-endian words. -/
def toWords : List Nat → List Nat
  | b0 :: b1 :: b2 :: b3 :: rest =>
    ((b0 <<< 24) ||| (b1 <<< 16) ||| (b2 <<< 8) ||| b3) :: toWords rest
  | _ => []

/-- Group words into 16-word blocks. -/
def toBlocks (ws : List Nat) : List (List Nat) :=
  if h : ws = [] then []
  else
    have : ws.length - 16 < ws.length :=
      Nat.sub_lt (List.length_pos.mpr h) (by omega)
    ws.take 16 :: toBlocks (ws.drop 16)
termination_by ws.length
decreasing_by simpa using this

/-- One extension step of the SHA-256 message schedule. -/
def scheduleStep (w : List Nat) : List Nat :=
  let t := w.length
  w ++ [w32 (smallSigma1 (w.getD (t - 2) 0) + w.getD (t - 7) 0 +
    smallSigma0 (w.getD (t - 15) 0) + w.getD (t - 16) 0)]

/-- The 64-word message schedule of one block. -/
def schedule (block : List Nat) : List Nat :=
  (List.range 48).foldl (fun w _ => scheduleStep w) block

/-- The eight 32-bit working variables of the compression function. -/
structure Digest where
  a : Nat
  b : Nat
  c : Nat
  d : Nat
  e : Nat
  f : Nat
  g : Nat
  h : Nat
deriving Repr, DecidableEq

/-- The SHA-256 initial hash value (FIPS 180-4, in decimal). -/
def initH : Digest :=
  ⟨1779033703, 3144134277, 1013904242, 2773480762,
   1359893119, 2600822924, 528734635, 1541459225⟩

/-- One round of the SHA-256 compression function. -/
def round (s : Digest) (kt wt : Nat) : Digest :=
  let t1 := w32 (s.h + bigSigma1 s.e + ch s.e s.f s.g + kt + wt)
  let t2 := w32 (bigSigma0 s.a + maj s.a s.b s.c)
  ⟨w32 (t1 + t2), s.a, s.b, s.c, w32 (s.d + t1), s.e, s.f, s.g⟩

/-- Process one 16-word block. -/
def processBlock (h : Digest) (block : List Nat) : Digest :=
  let s := (K.zip (schedule block)).foldl (fun s kw => round s kw.1 kw.2) h
  ⟨w32 (h.a + s.a), w32 (h.b + s.b), w32 (h.c + s.c), w32 (h.d + s.d),
   w32 (h.e + s.e), w32 (h.f + s.f), w32 (h.g + s.g), w32 (h.h + s.h)⟩

/-- Big-endian bytes of a 32-bit word. -/
def wordBytes (x : Nat) : List Nat :=
  [(x >>> 24) % 256, (x >>> 16) % 256, (x >>> 8) % 256, x % 256]

/-- SHA-256 of a byte list. -/
def sha256 (msg : List Nat) : List Nat :=
  let d := (toBlocks (toWords (pad msg))).foldl processBlock initH
  (([d.a, d.b, d.c, d.d, d.e, d.f, d.g, d.h]).map wordBytes).flatten

/-- HMAC-SHA256 (`crypto/hmac` with `sha256.New`): block size 64. -/
def hmacSha256 (key msg : List Nat) : List Nat :=
  let k0 := if key.length > 64 then sha256 key else key
  let k := k0 ++ List.replicate (64 - k0.length) 0
  let ipad := k.map (fun b => b ^^^ 54)
  let opad := k.map (fun b => b ^^^ 92)
  sha256 (opad ++ sha256 (ipad ++ msg))

/-- Lowercase hex digit of a value below 16 (Go `%x`). -/
def hexDigit (n : Nat) : Nat := if n < 10 then 48 + n else 87 + n

/-- Lowercase hex encoding of a byte list, as the bytes of the hex
string (Go `fmt.Sprintf("%x", ...)`). -/
def hexBytes (bs : List Nat) : List Nat :=
  (bs.map (fun b => [hexDigit (b / 16), hexDigit (b % 16)])).flatten

/-- `computeHMACSHA256`: hex-encoded HMAC-SHA256, as string bytes. -/
def computeHMACSHA256 (key data : List Nat) : List Nat :=
  hexBytes (hmacSha256 key data)

/-- `hmacEqual` (and Go's `hmac.Equal`): constant-time byte comparison —
a length check, then OR together the XORs of corresponding bytes. -/
def hmacEqual (a b : List Nat) : Bool :=
  if a.length != b.length then false
  else ((a.zip b).foldl (fun result p => result ||| (p.1 ^^^ p.2)) 0) == 0

/-- `verifyWebhookSignature(signature, body, secret)`: skip when the
secret is empty; require a non-empty signature; compare against the
hex HMAC-SHA256 of the raw body. -/
def verifyWebhookSignature (signature body secret : List Nat) :
    Except String Unit :=
  if secret.length = 0 then .ok ()
  else if signature = [] then .error "missing signature"
  else if hmacEqual signature (computeHMACSHA256 secret body) then .ok ()
  else .error "signature mismatch"

/-! ## Event filter state machine (`OnIncident.HandleWebhook`)

The milestone-filtering variant of the trigger: configuration
`{severities, current_milestone}`, operations `CREATED`/`UPDATED`,
bootstrap dedup on a one-element milestone history, milestone and
severity allow-lists, then normalization and payload construction. -/

/-- `OnIncidentConfiguration`: decoded trigger configuration. -/
structure OnIncidentConfiguration where
  severities : List String
  currentMilestone : List String
deriving Repr, DecidableEq

/-- `WebhookEvent`: the event metadata of a FireHydrant delivery. -/
structure WebhookEvent where
  operation : String
  resourceType : String
deriving Repr, DecidableEq

/-- `WebhookData`: the incident record of a delivery (`none` embeds a
nil Go map). -/
structure WebhookData where
  incident : Option RecordMap

/-- `WebhookPayload`: a decoded FireHydrant delivery. -/
structure WebhookPayload where
  data : WebhookData
  event : WebhookEvent

/-- `createdOperation`. -/
def createdOperation : String := "CREATED"

/-- `updatedOperation`. -/
def updatedOperation : String := "UPDATED"

/-- Go `payload.Data.Incident[k]` (lookup on a possibly-nil map). -/
def incidentLookup (payload : WebhookPayload) (k : String) : Option Value :=
  match payload.data.incident with
  | none => none
  | some incident => lookupKey incident k

/-- `normalizeIncident`: shallow-copy the record, then flatten the
`severity` and `priority` fields to their slug when they are nested
objects with a string `slug`. -/
def normalizeIncident (raw : RecordMap) : RecordMap :=
  let normalized := raw
  let normalized :=
    match lookupKey raw "severity" with
    | some (.obj severity) =>
      match lookupKey severity "slug" with
      | some (.str slug) => setKey normalized "severity" (.str slug)
      | _ => normalized
    | _ => normalized
  match lookupKey raw "priority" with
  | some (.obj priority) =>
    match lookupKey priority "slug" with
    | some (.str slug) => setKey normalized "priority" (.str slug)
    | _ => normalized
  | _ => normalized

/-- `buildIncidentPayload`: the outgoing event payload; the `incident`
key is present only when the delivery carried an incident record. -/
def buildIncidentPayload (payload : WebhookPayload) : RecordMap :=
  let eventName :=
    if payload.event.operation == "UPDATED" then "incident.updated"
    else "incident.created"
  let result : RecordMap :=
    [("event", .str eventName),
     ("operation", .str payload.event.operation),
     ("resource_type", .str payload.event.resourceType)]
  match payload.data.incident with
  | some incident => setKey result "incident" (.obj (normalizeIncident incident))
  | none => result

/-- `extractSeveritySlug`: the slug of the incident's severity, when the
severity is a nested object with a string `slug`; otherwise `""`. -/
def extractSeveritySlug (payload : WebhookPayload) : String :=
  match payload.data.incident with
  | none => ""
  | some incident =>
    match lookupKey incident "severity" with
    | none => ""
    | some .null => ""
    | some (.obj sevMap) =>
      match lookupKey sevMap "slug" with
      | some (.str slug) => slug
      | _ => ""
    | some _ => ""

/-- The filter's verdict on one authenticated, decoded delivery. -/
inductive WebhookDecision where
  | noEmit : WebhookDecision
  | emit : String → RecordMap → WebhookDecision

/-- The final emission of `HandleWebhook`: event type by operation, and
the built incident payload. -/
def emitStep (payload : WebhookPayload) : WebhookDecision :=
  let emitType :=
    if payload.event.operation == updatedOperation then
      "firehydrant.incident.updated"
    else "firehydrant.incident.created"
  .emit emitType (buildIncidentPayload payload)

/-- The severity filter of `HandleWebhook`: with a non-empty configured
allow-list, drop the delivery when the extracted slug is empty or not
allowed. -/
def severityStep (config : OnIncidentConfiguration)
    (payload : WebhookPayload) : WebhookDecision :=
  if config.severities.length > 0 then
    let incidentSeverity := extractSeveritySlug payload
    if incidentSeverity == "" || !config.severities.contains incidentSeverity then
      .noEmit
    else emitStep payload
  else emitStep payload

/-- The `UPDATED` milestone filter of `HandleWebhook`: the record's
`current_milestone` must be a non-empty string in the allow-list. -/
def updatedMilestoneStep (config : OnIncidentConfiguration)
    (payload : WebhookPayload) : WebhookDecision :=
  match incidentLookup payload "current_milestone" with
  | some (.str currentMilestone) =>
    if currentMilestone == "" ||
        !config.currentMilestone.contains currentMilestone then
      .noEmit
    else severityStep config payload
  | _ => .noEmit

/-- The decision core of `OnIncident.HandleWebhook`, after signature
verification and JSON decoding: resource/operation gates, the `CREATED`
milestone gate, the `UPDATED` bootstrap dedup and milestone gate, the
severity filter, then emission. -/
def handleWebhookFilter (config : OnIncidentConfiguration)
    (payload : WebhookPayload) : WebhookDecision :=
  if payload.event.resourceType != "incident" then .noEmit
  else if payload.event.operation != createdOperation &&
      payload.event.operation != updatedOperation then .noEmit
  else if payload.event.operation == createdOperation &&
      !config.currentMilestone.contains "started" then .noEmit
  else if payload.event.operation == updatedOperation then
    match incidentLookup payload "milestones" with
    | some (.list milestones) =>
      if milestones.length == 1 then .noEmit
      else updatedMilestoneStep config payload
    | _ => updatedMilestoneStep config payload
  else severityStep config payload

/-! ## Heap model of map mutation (`maps.Copy` and map writes)

Go maps are mutable reference values.  To state that
`buildIncidentPayload` never mutates the delivery's original incident
map, the map operations performed by `normalizeIncident` and
`buildIncidentPayload` are replayed against an explicit heap of maps:
a reference is an index, `maps.Copy(dst, src)` is a fold of writes into
`dst`, and fresh maps come from `alloc`. -/

/-- A reference to a mutable Go map. -/
abbrev Ref := Nat

/-- The heap of live Go maps. -/
structure Heap where
  maps : List RecordMap

/-- Dereference (reads of dead refs yield the empty map). -/
def Heap.read (h : Heap) (r : Ref) : RecordMap := h.maps[r]?.getD []

/-- Allocate a fresh map. -/
def Heap.alloc (h : Heap) (m : RecordMap) : Heap × Ref :=
  (⟨h.maps ++ [m]⟩, h.maps.length)

/-- Write one key of the map behind `r`. -/
def Heap.write (h : Heap) (r : Ref) (k : String) (v : Value) : Heap :=
  ⟨h.maps.set r (setKey (h.read r) k v)⟩

/-- `normalizeIncident` replayed on the heap: allocate `normalized`,
`maps.Copy(normalized, raw)`, then the two conditional slug writes —
all writes target `normalized`, never `raw`. -/
def normalizeIncidentH (h : Heap) (raw : Ref) : Heap × Ref :=
  let (h1, normalized) := h.alloc []
  let h2 := (h1.read raw).foldl
    (fun acc kv => acc.write normalized kv.1 kv.2) h1
  let h3 :=
    match lookupKey (h2.read raw) "severity" with
    | some (.obj severity) =>
      match lookupKey severity "slug" with
      | some (.str slug) => h2.write normalized "severity" (.str slug)
      | _ => h2
    | _ => h2
  let h4 :=
    match lookupKey (h3.read raw) "priority" with
    | some (.obj priority) =>
      match lookupKey priority "slug" with
      | some (.str slug) => h3.write normalized "priority" (.str slug)
      | _ => h3
    | _ => h3
  (h4, normalized)

/-- The initial contents of the result map of `buildIncidentPayload`:
the three event-metadata keys. -/
def payloadHeader (operation resourceType : String) : RecordMap :=
  [("event", .str (if operation == "UPDATED" then "incident.updated"
      else "incident.created")),
   ("operation", .str operation),
   ("resource_type", .str resourceType)]

/-- `buildIncidentPayload` replayed on the heap: allocate the result
map, normalize the incident into a fresh map, and store it under the
`incident` key of the result. -/
def buildIncidentPayloadH (h : Heap) (operation resourceType : String)
    (incident : Option Ref) : Heap × Ref :=
  let (h1, result) := h.alloc (payloadHeader operation resourceType)
  match incident with
  | some raw =>
    let (h2, normalized) := normalizeIncidentH h1 raw
    let h3 := h2.write result "incident" (.obj (h2.read normalized))
    (h3, result)
  | none => (h1, result)

/-! ## Theorems -/

theorem subsetOrEqual_iff (a b : List String) :
    subscriptionsSubsetOrEqual a b = true ↔ ∀ x ∈ a, x ∈ b := by
  simp [subscriptionsSubsetOrEqual, List.all_eq_true]

/-- C1: for all decoded webhook configurations `cur` and `req`, `Merge`
returns `req`'s scope with `changed = true` exactly when `cur`'s scope is
a strict subset of `req`'s scope (every element of `cur` occurs in
`req` but not conversely); in every other case it returns `cur`
unchanged with `changed = false`; and `Merge A A = (A, false)` for every
`A`, so re-applying the same requested scope yields `changed = false`. -/
theorem merge_expands_iff_strict_subset (cur req : WebhookConfiguration) :
    (Merge cur req = (req, true) ↔
      ((∀ x ∈ cur.subscriptions, x ∈ req.subscriptions) ∧
        ¬ (∀ x ∈ req.subscriptions, x ∈ cur.subscriptions))) ∧
    (¬ ((∀ x ∈ cur.subscriptions, x ∈ req.subscriptions) ∧
        ¬ (∀ x ∈ req.subscriptions, x ∈ cur.subscriptions)) →
      Merge cur req = (cur, false)) ∧
    Merge cur cur = (cur, false) := by
  refine ⟨?_, ?_, ?_⟩
  · constructor
    · intro h
      by_cases hc :
          (subscriptionsSubsetOrEqual cur.subscriptions req.subscriptions &&
            !subscriptionsSubsetOrEqual req.subscriptions cur.subscriptions) = true
      · rw [Bool.and_eq_true, Bool.not_eq_true'] at hc
        refine ⟨(subsetOrEqual_iff _ _).mp hc.1, fun hrev => ?_⟩
        have := (subsetOrEqual_iff req.subscriptions cur.subscriptions).mpr hrev
        simp [hc.2] at this
      · exfalso
        have : Merge cur req = (cur, false) := by
          unfold Merge
          simp only [if_neg hc]
        rw [this] at h
        exact Bool.false_ne_true (congrArg Prod.snd h)
    · rintro ⟨hsub, hrev⟩
      have h1 : subscriptionsSubsetOrEqual cur.subscriptions req.subscriptions = true :=
        (subsetOrEqual_iff _ _).mpr hsub
      have h2 : subscriptionsSubsetOrEqual req.subscriptions cur.subscriptions = false := by
        cases hb : subscriptionsSubsetOrEqual req.subscriptions cur.subscriptions
        · rfl
        · exact absurd ((subsetOrEqual_iff _ _).mp hb) hrev
      unfold Merge
      simp [h1, h2]
  · intro h
    have hc :
        (subscriptionsSubsetOrEqual cur.subscriptions req.subscriptions &&
          !subscriptionsSubsetOrEqual req.subscriptions cur.subscriptions) = false := by
      rw [Bool.and_eq_false_iff]
      by_cases h1 : subscriptionsSubsetOrEqual cur.subscriptions req.subscriptions = true
      · right
        rw [Bool.not_eq_false']
        cases hb : subscriptionsSubsetOrEqual req.subscriptions cur.subscriptions
        · exact absurd ⟨(subsetOrEqual_iff _ _).mp h1,
            fun hrev => by
              have := (subsetOrEqual_iff req.subscriptions cur.subscriptions).mpr hrev
              simp [hb] at this⟩ h
        · rfl
      · exact Or.inl (Bool.eq_false_iff.mpr h1)
    unfold Merge
    simp [hc]
  · unfold Merge
    simp

/-- Witness for `merge_expands_iff_strict_subset` at concrete scopes:
`{incidents} ⊂ {incidents, incidents.private}` expands with
`changed = true`, and a disjoint request leaves the current scope with
`changed = false`. -/
theorem merge_expands_iff_strict_subset_witness :
    Merge ⟨["incidents"]⟩ ⟨["incidents", "incidents.private"]⟩ =
      (⟨["incidents", "incidents.private"]⟩, true) ∧
    Merge ⟨["incidents"]⟩ ⟨["incidents.private"]⟩ = (⟨["incidents"]⟩, false) := by
  constructor
  · exact (merge_expands_iff_strict_subset ⟨["incidents"]⟩
      ⟨["incidents", "incidents.private"]⟩).1.mpr (by decide)
  · exact (merge_expands_iff_strict_subset ⟨["incidents"]⟩
      ⟨["incidents.private"]⟩).2.1 (by decide)

/-- C9: a configuration with an empty subscriptions list is judged
compatible with every configuration by `CompareConfig`, in both argument
orders — the empty scope is vacuously a subset of every scope. -/
theorem compareConfig_empty_matches_all (b : WebhookConfiguration) :
    CompareConfig ⟨[]⟩ b = true ∧ CompareConfig b ⟨[]⟩ = true := by
  constructor
  · simp [CompareConfig, subscriptionsSubsetOrEqual]
  · simp [CompareConfig, subscriptionsSubsetOrEqual]

/-- C3 counterexample: a client whose listing call fails outright while
creation succeeds.  `findOrCreateWebhook` does not return the listing
error — it proceeds to the create call and returns the created webhook,
so an upstream listing error does not abort setup as the claim states. -/
theorem findOrCreate_list_error_proceeds_to_create :
    findOrCreateWebhook
      { listWebhooks := .error "list failed"
        updateWebhook := fun _ _ _ => .error "unused"
        createWebhook := fun _ _ _ =>
          .ok ⟨"wh-1", "https://example.com/hook", "s", ["incidents"]⟩ }
      "https://example.com/hook" "s" ["incidents"] =
      .ok ⟨"wh-1", "https://example.com/hook", "s", ["incidents"]⟩ := rfl

/-- C3 amended: an upstream create or update error aborts setup with an
error (so no webhook metadata is produced), but an upstream listing
error does not abort — `findOrCreateWebhook` falls through to the
create call and the outcome is the create call's outcome. -/
theorem findOrCreate_error_behavior (client : Client)
    (url secret : String) (subs : List String) :
    (∀ webhooks webhook e,
      client.listWebhooks = .ok webhooks →
      findWebhookByURL webhooks url = some webhook →
      subscriptionsEqual webhook.subscriptions
        (mergeSubscriptions webhook.subscriptions subs) = false →
      client.updateWebhook webhook.id url
        (mergeSubscriptions webhook.subscriptions subs) = .error e →
      findOrCreateWebhook client url secret subs =
        .error ("error updating webhook: " ++ e)) ∧
    (∀ e,
      ((∃ le, client.listWebhooks = .error le) ∨
        (∃ webhooks, client.listWebhooks = .ok webhooks ∧
          findWebhookByURL webhooks url = none)) →
      client.createWebhook url secret subs = .error e →
      findOrCreateWebhook client url secret subs =
        .error ("error creating webhook: " ++ e)) ∧
    (∀ le, client.listWebhooks = .error le →
      findOrCreateWebhook client url secret subs =
        createWebhookCall client url secret subs) := by
  refine ⟨?_, ?_, ?_⟩
  · intro webhooks webhook e hlist hfind hne hupd
    unfold findOrCreateWebhook
    rw [hlist]
    simp only [hfind, hne, hupd]
    rfl
  · intro e hpath hcreate
    rcases hpath with ⟨le, hle⟩ | ⟨webhooks, hok, hnone⟩
    · unfold findOrCreateWebhook
      rw [hle]
      unfold createWebhookCall
      rw [hcreate]
    · unfold findOrCreateWebhook
      rw [hok]
      simp only [hnone]
      unfold createWebhookCall
      rw [hcreate]
  · intro le hle
    unfold findOrCreateWebhook
    rw [hle]

/-- Witness for `findOrCreate_error_behavior`: with a client whose
listing call fails and whose create call also fails, setup surfaces the
create error. -/
theorem findOrCreate_error_behavior_witness :
    findOrCreateWebhook
        { listWebhooks := .error "boom"
          updateWebhook := fun _ _ _ => .error "unused"
          createWebhook := fun _ _ _ => .error "fail" }
        "https://example.com/hook" "s" ["incidents"] =
      .error ("error creating webhook: " ++ "fail") :=
  (findOrCreate_error_behavior
      { listWebhooks := .error "boom"
        updateWebhook := fun _ _ _ => .error "unused"
        createWebhook := fun _ _ _ => .error "fail" }
      "https://example.com/hook" "s" ["incidents"]).2.1 "fail"
    (Or.inl ⟨"boom", rfl⟩) rfl

theorem lor_zero_iff (a b : Nat) : a ||| b = 0 ↔ a = 0 ∧ b = 0 := by
  constructor
  · intro h
    have hbit : ∀ i, (a ||| b).testBit i = false := by
      intro i; rw [h]; simp
    constructor
    · apply Nat.zero_of_testBit_eq_false
      intro i
      have := hbit i
      rw [Nat.testBit_lor] at this
      exact (Bool.or_eq_false_iff.mp this).1
    · apply Nat.zero_of_testBit_eq_false
      intro i
      have := hbit i
      rw [Nat.testBit_lor] at this
      exact (Bool.or_eq_false_iff.mp this).2
  · rintro ⟨rfl, rfl⟩
    rfl

theorem foldl_lor_eq_zero {α : Type} (f : α → Nat) (l : List α) (acc : Nat) :
    l.foldl (fun r x => r ||| f x) acc = 0 ↔ acc = 0 ∧ ∀ x ∈ l, f x = 0 := by
  induction l generalizing acc with
  | nil => simp
  | cons y ys ih =>
    rw [List.foldl_cons, ih, lor_zero_iff]
    constructor
    · rintro ⟨⟨h1, h2⟩, h3⟩
      refine ⟨h1, fun x hx => ?_⟩
      rcases List.mem_cons.mp hx with rfl | hx
      · exact h2
      · exact h3 x hx
    · rintro ⟨h1, h2⟩
      exact ⟨⟨h1, h2 y (List.mem_cons_self y ys)⟩,
        fun x hx => h2 x (List.mem_cons_of_mem y hx)⟩

theorem zip_pointwise_eq :
    ∀ (a b : List Nat), a.length = b.length →
      ((∀ p ∈ a.zip b, p.1 = p.2) ↔ a = b)
  | [], [], _ => by simp
  | [], _ :: _, h => by simp at h
  | _ :: _, [], h => by simp at h
  | x :: xs, y :: ys, h => by
    have ih := zip_pointwise_eq xs ys (by simpa using h)
    simp only [List.zip_cons_cons, List.mem_cons]
    constructor
    · intro hp
      have hxy : x = y := hp (x, y) (Or.inl rfl)
      have : xs = ys := ih.mp (fun p hp' => hp p (Or.inr hp'))
      rw [hxy, this]
    · intro he p hp
      injection he with h1 h2
      rcases hp with rfl | hp
      · exact h1
      · exact (ih.mpr h2) p hp

theorem hmacEqual_iff (a b : List Nat) : hmacEqual a b = true ↔ a = b := by
  unfold hmacEqual
  by_cases hlen : a.length = b.length
  · rw [if_neg (by simp [hlen])]
    rw [beq_iff_eq, foldl_lor_eq_zero (fun p : Nat × Nat => p.1 ^^^ p.2)]
    constructor
    · rintro ⟨_, h2⟩
      exact (zip_pointwise_eq a b hlen).mp
        (fun p hp => Nat.xor_eq_zero.mp (h2 p hp))
    · rintro rfl
      exact ⟨rfl, fun p hp => Nat.xor_eq_zero.mpr
        ((zip_pointwise_eq a a rfl).mpr rfl p hp)⟩
  · rw [if_pos (by simp [hlen])]
    constructor
    · intro h
      exact (Bool.false_ne_true h).elim
    · intro he
      exact absurd (congrArg List.length he) hlen

theorem sha256_length (msg : List Nat) : (sha256 msg).length = 32 := by
  unfold sha256
  simp [wordBytes]

theorem hexBytes_length (bs : List Nat) :
    (hexBytes bs).length = 2 * bs.length := by
  unfold hexBytes
  induction bs with
  | nil => rfl
  | cons b rest ih =>
    simp only [List.map_cons, List.flatten_cons, List.length_append,
      List.length_cons, List.length_nil] at *
    omega

theorem computeHMACSHA256_length (key data : List Nat) :
    (computeHMACSHA256 key data).length = 64 := by
  unfold computeHMACSHA256 hmacSha256
  rw [hexBytes_length, sha256_length]

/-- C2: `verifyWebhookSignature` succeeds whenever the secret is empty;
with a non-empty secret it succeeds exactly on the lowercase-hex
HMAC-SHA256 of the raw body keyed by the secret, fails with the
missing-signature error on an empty signature, and fails with the
mismatch error on any other signature value. -/
theorem verifyWebhookSignature_spec (signature body secret : List Nat) :
    (secret = [] → verifyWebhookSignature signature body secret = .ok ()) ∧
    (secret ≠ [] → signature = computeHMACSHA256 secret body →
      verifyWebhookSignature signature body secret = .ok ()) ∧
    (secret ≠ [] → signature = [] →
      verifyWebhookSignature signature body secret =
        .error "missing signature") ∧
    (secret ≠ [] → signature ≠ [] →
      signature ≠ computeHMACSHA256 secret body →
      verifyWebhookSignature signature body secret =
        .error "signature mismatch") := by
  refine ⟨?_, ?_, ?_, ?_⟩
  · intro hs
    unfold verifyWebhookSignature
    rw [if_pos (by simp [hs])]
  · intro hs hsig
    have hlen : secret.length ≠ 0 := by
      simpa [List.length_eq_zero] using hs
    have hne : signature ≠ [] := by
      intro h
      rw [h] at hsig
      have := congrArg List.length hsig
      rw [computeHMACSHA256_length] at this
      simp at this
    unfold verifyWebhookSignature
    rw [if_neg hlen, if_neg hne,
      if_pos ((hmacEqual_iff _ _).mpr hsig)]
  · intro hs hsig
    have hlen : secret.length ≠ 0 := by
      simpa [List.length_eq_zero] using hs
    unfold verifyWebhookSignature
    rw [if_neg hlen, if_pos hsig]
  · intro hs hne hmis
    have hlen : secret.length ≠ 0 := by
      simpa [List.length_eq_zero] using hs
    have heq : hmacEqual signature (computeHMACSHA256 secret body) = false := by
      cases hb : hmacEqual signature (computeHMACSHA256 secret body)
      · rfl
      · exact absurd ((hmacEqual_iff _ _).mp hb) hmis
    unfold verifyWebhookSignature
    rw [if_neg hlen, if_neg hne, if_neg (by simp [heq])]

/-- Witness for `verifyWebhookSignature_spec` at a concrete secret
(`"key"`) and body (`"body"`): the correct hex HMAC verifies, the empty
signature yields the missing-signature error, a wrong-length signature
yields the mismatch error, and the empty secret skips verification. -/
theorem verifyWebhookSignature_spec_witness :
    verifyWebhookSignature
        (computeHMACSHA256 [107, 101, 121] [98, 111, 100, 121])
        [98, 111, 100, 121] [107, 101, 121] = .ok () ∧
    verifyWebhookSignature [] [98, 111, 100, 121] [107, 101, 121] =
      .error "missing signature" ∧
    verifyWebhookSignature [120] [98, 111, 100, 121] [107, 101, 121] =
      .error "signature mismatch" ∧
    verifyWebhookSignature [120] [98, 111, 100, 121] [] = .ok () := by
  refine ⟨?_, ?_, ?_, ?_⟩
  · exact (verifyWebhookSignature_spec _ _ _).2.1 (by decide) rfl
  · exact (verifyWebhookSignature_spec _ _ _).2.2.1 (by decide) rfl
  · refine (verifyWebhookSignature_spec _ _ _).2.2.2 (by decide) (by decide) ?_
    intro h
    have := congrArg List.length h
    rw [computeHMACSHA256_length] at this
    simp at this
  · exact (verifyWebhookSignature_spec _ _ _).1 rfl

theorem lookupKey_setKey_self (m : RecordMap) (k : String) (v : Value) :
    lookupKey (setKey m k v) k = some v := by
  induction m with
  | nil =>
    simp [setKey, lookupKey]
  | cons p rest ih =>
    rcases p with ⟨k1, v1⟩
    by_cases h : k1 = k
    · rw [setKey, if_pos (by simpa using h)]
      unfold lookupKey
      rw [List.find?_cons_of_pos _ (by simp)]
      rfl
    · rw [setKey, if_neg (by simpa using h)]
      unfold lookupKey
      rw [List.find?_cons_of_neg _ (by simpa using h)]
      exact ih

theorem lookupKey_setKey_ne (m : RecordMap) (k k' : String) (v : Value)
    (h : k' ≠ k) :
    lookupKey (setKey m k v) k' = lookupKey m k' := by
  induction m with
  | nil =>
    unfold setKey lookupKey
    rw [List.find?_cons_of_neg _ (by simpa using fun he : k = k' => h he.symm)]
  | cons p rest ih =>
    rcases p with ⟨k1, v1⟩
    by_cases hp : k1 = k
    · rw [setKey, if_pos (by simpa using hp)]
      unfold lookupKey
      rw [List.find?_cons_of_neg _ (by simpa using fun he : k = k' => h he.symm),
        List.find?_cons_of_neg _
          (by simpa using fun he : k1 = k' => h (he.symm.trans hp))]
    · rw [setKey, if_neg (by simpa using hp)]
      by_cases hk : k1 = k'
      · unfold lookupKey
        rw [List.find?_cons_of_pos _ (by simpa using hk),
          List.find?_cons_of_pos _ (by simpa using hk)]
      · unfold lookupKey
        rw [List.find?_cons_of_neg _ (by simpa using hk),
          List.find?_cons_of_neg _ (by simpa using hk)]
        exact ih

/-- C5: an authenticated `UPDATED` incident delivery whose record's
milestone-history list has exactly one element is dropped by the
bootstrap dedup, regardless of the configuration and of all other
fields of the record. -/
theorem updated_single_milestone_history_no_emit
    (config : OnIncidentConfiguration) (payload : WebhookPayload) (m : Value)
    (hop : payload.event.operation = "UPDATED")
    (hrt : payload.event.resourceType = "incident")
    (hms : incidentLookup payload "milestones" = some (.list [m])) :
    handleWebhookFilter config payload = .noEmit := by
  simp [handleWebhookFilter, hop, hrt, hms, createdOperation, updatedOperation]

/-- Witness for `updated_single_milestone_history_no_emit`: a concrete
`UPDATED` delivery with a one-element milestone history is dropped even
though its current milestone and severity are allowed. -/
theorem updated_single_milestone_history_no_emit_witness :
    handleWebhookFilter ⟨["SEV1"], ["started", "resolved"]⟩
      { data := ⟨some [("id", Value.str "inc-7"),
          ("current_milestone", Value.str "started"),
          ("milestones", Value.list [Value.obj [("type", Value.str "started")]]),
          ("severity", Value.obj [("slug", Value.str "SEV1")])]⟩,
        event := ⟨"UPDATED", "incident"⟩ } = .noEmit :=
  updated_single_milestone_history_no_emit _ _
    (Value.obj [("type", Value.str "started")]) rfl rfl rfl

/-- C4 (the code as embedded): a `CREATED` incident delivery handled
under a configuration with no `current_milestone` entry (which decodes
to the empty allow-list — the schema default `{"started"}` is never
injected by `HandleWebhook`) is dropped, not emitted. -/
theorem created_unset_milestone_config_drops_delivery :
    handleWebhookFilter ⟨[], []⟩
      { data := ⟨some [("id", Value.str "inc-123"),
          ("name", Value.str "API Outage"),
          ("severity", Value.obj [("slug", Value.str "SEV1")])]⟩,
        event := ⟨"CREATED", "incident"⟩ } = .noEmit := rfl

theorem handleWebhookFilter_noEmit_or_severityStep
    (config : OnIncidentConfiguration) (payload : WebhookPayload) :
    handleWebhookFilter config payload = .noEmit ∨
    handleWebhookFilter config payload = severityStep config payload := by
  unfold handleWebhookFilter updatedMilestoneStep
  repeat' split
  all_goals first | exact Or.inl rfl | exact Or.inr rfl

/-- C6 counterexample: a `CREATED` incident whose `severity` field is
the flat string `"SEV1"` does not pass a severity filter whose
allow-list contains `"SEV1"` — the slug extractor only accepts the
nested object shape, so the delivery is dropped. -/
theorem flat_severity_string_is_filtered_out :
    handleWebhookFilter ⟨["SEV1"], ["started"]⟩
      { data := ⟨some [("id", Value.str "inc-1"),
          ("severity", Value.str "SEV1")]⟩,
        event := ⟨"CREATED", "incident"⟩ } = .noEmit := rfl

/-- C6 amended: the severity slug is extracted supporting only the
nested `{slug: ...}` object shape — an already-flat string yields the
empty slug — and with a non-empty configured allow-list the filter
emits no event when the slug is absent (or unextractable) or not in the
allow-list.  In particular a record whose severity is the flat string
`"SEV1"` does not pass a filter allowing `"SEV1"`. -/
theorem severity_filter_requires_nested_slug
    (config : OnIncidentConfiguration) (payload : WebhookPayload)
    (hsev : config.severities ≠ []) :
    (∀ inc s, payload.data.incident = some inc →
      lookupKey inc "severity" = some (.str s) →
      extractSeveritySlug payload = "") ∧
    (∀ inc sevMap s, payload.data.incident = some inc →
      lookupKey inc "severity" = some (.obj sevMap) →
      lookupKey sevMap "slug" = some (.str s) →
      extractSeveritySlug payload = s) ∧
    ((extractSeveritySlug payload = "" ∨
        extractSeveritySlug payload ∉ config.severities) →
      handleWebhookFilter config payload = .noEmit) := by
  refine ⟨?_, ?_, ?_⟩
  · intro inc s hinc hs
    simp [extractSeveritySlug, hinc, hs]
  · intro inc sevMap s hinc hs hslug
    simp [extractSeveritySlug, hinc, hs, hslug]
  · intro hbad
    have hstep : severityStep config payload = .noEmit := by
      unfold severityStep
      rw [if_pos (by simpa [List.length_pos] using hsev)]
      rcases hbad with hempty | hnotin
      · rw [if_pos (by simp [hempty])]
      · rw [if_pos (by simp [hnotin])]
    rcases handleWebhookFilter_noEmit_or_severityStep config payload with h | h
    · exact h
    · rw [h, hstep]

/-- Witness for `severity_filter_requires_nested_slug`: with allow-list
`{SEV1}`, a flat-string severity `"SEV1"` extracts to the empty slug and
the delivery is dropped. -/
theorem severity_filter_requires_nested_slug_witness :
    extractSeveritySlug
      { data := ⟨some [("severity", Value.str "SEV1")]⟩,
        event := ⟨"CREATED", "incident"⟩ } = "" ∧
    handleWebhookFilter ⟨["SEV1"], ["started"]⟩
      { data := ⟨some [("severity", Value.str "SEV1")]⟩,
        event := ⟨"CREATED", "incident"⟩ } = .noEmit := by
  refine ⟨?_, ?_⟩
  · exact (severity_filter_requires_nested_slug ⟨["SEV1"], ["started"]⟩
      _ (by decide)).1 _ "SEV1" rfl rfl
  · exact (severity_filter_requires_nested_slug ⟨["SEV1"], ["started"]⟩
      _ (by decide)).2.2
      (Or.inl ((severity_filter_requires_nested_slug ⟨["SEV1"], ["started"]⟩
        _ (by decide)).1 _ "SEV1" rfl rfl))

/-- C7 counterexample: a record whose `current_milestone` field is a
nested object with a string `slug` is left unchanged by
`normalizeIncident` — only `severity` and `priority` are flattened, so
the milestone is not replaced by its slug as the claim states. -/
theorem normalize_keeps_nested_current_milestone :
    normalizeIncident
      [("current_milestone", Value.obj [("slug", Value.str "started")])] =
      [("current_milestone", Value.obj [("slug", Value.str "started")])] := rfl

/-- C7 amended: `normalizeIncident` replaces the `severity` and
`priority` fields by their slug string whenever they are nested objects
with a string-valued `slug`, leaves them unchanged in every other shape,
and leaves every other field — including `current_milestone`, whatever
its shape — unchanged. -/
theorem normalize_flattens_severity_and_priority_only (raw : RecordMap) :
    (∀ k, k ≠ "severity" → k ≠ "priority" →
      lookupKey (normalizeIncident raw) k = lookupKey raw k) ∧
    (∀ m s, lookupKey raw "severity" = some (.obj m) →
      lookupKey m "slug" = some (.str s) →
      lookupKey (normalizeIncident raw) "severity" = some (.str s)) ∧
    (∀ m s, lookupKey raw "priority" = some (.obj m) →
      lookupKey m "slug" = some (.str s) →
      lookupKey (normalizeIncident raw) "priority" = some (.str s)) ∧
    ((∀ m s, ¬ (lookupKey raw "severity" = some (.obj m) ∧
        lookupKey m "slug" = some (.str s))) →
      lookupKey (normalizeIncident raw) "severity" =
        lookupKey raw "severity") ∧
    ((∀ m s, ¬ (lookupKey raw "priority" = some (.obj m) ∧
        lookupKey m "slug" = some (.str s))) →
      lookupKey (normalizeIncident raw) "priority" =
        lookupKey raw "priority") := by
  refine ⟨?_, ?_, ?_, ?_, ?_⟩
  · intro k hks hkp
    unfold normalizeIncident
    repeat' split
    all_goals simp [lookupKey_setKey_ne, hks, hkp]
  · intro m s hs hslug
    unfold normalizeIncident
    simp only [hs, hslug]
    repeat' split
    all_goals simp [lookupKey_setKey_self, lookupKey_setKey_ne]
  · intro m s hp hslug
    unfold normalizeIncident
    simp only [hp, hslug]
    repeat' split
    all_goals simp [lookupKey_setKey_self, lookupKey_setKey_ne]
  · intro hno
    unfold normalizeIncident
    repeat' split
    all_goals
      first
      | exact absurd ⟨by assumption, by assumption⟩ (hno _ _)
      | simp [lookupKey_setKey_ne]
  · intro hno
    unfold normalizeIncident
    repeat' split
    all_goals
      first
      | exact absurd ⟨by assumption, by assumption⟩ (hno _ _)
      | simp [lookupKey_setKey_ne]

/-- Witness for `normalize_flattens_severity_and_priority_only`: a
record with a nested severity, a flat-string priority and a scalar
milestone is normalized to a flattened severity with everything else
unchanged. -/
theorem normalize_flattens_severity_and_priority_only_witness :
    lookupKey (normalizeIncident
        [("severity", Value.obj [("slug", Value.str "SEV1")]),
         ("priority", Value.str "P1"),
         ("current_milestone", Value.str "started")]) "severity" =
      some (Value.str "SEV1") ∧
    lookupKey (normalizeIncident
        [("severity", Value.obj [("slug", Value.str "SEV1")]),
         ("priority", Value.str "P1"),
         ("current_milestone", Value.str "started")]) "current_milestone" =
      some (Value.str "started") := by
  constructor
  · exact (normalize_flattens_severity_and_priority_only _).2.1
      [("slug", Value.str "SEV1")] "SEV1" rfl rfl
  · exact (normalize_flattens_severity_and_priority_only _).1
      "current_milestone" (by decide) (by decide)

/-- C10: the outgoing event payload contains no `incident` key when the
delivery's incident record is nil, while the `event`, `operation` and
`resource_type` keys are present in every built payload. -/
theorem buildIncidentPayload_keys (payload : WebhookPayload) :
    (payload.data.incident = none →
      lookupKey (buildIncidentPayload payload) "incident" = none) ∧
    (lookupKey (buildIncidentPayload payload) "event").isSome = true ∧
    (lookupKey (buildIncidentPayload payload) "operation").isSome = true ∧
    (lookupKey (buildIncidentPayload payload) "resource_type").isSome
      = true := by
  rcases payload with ⟨⟨inc⟩, ⟨op, rt⟩⟩
  rcases inc with _ | inc
  · exact ⟨fun _ => rfl, rfl, rfl, rfl⟩
  · exact ⟨fun h => Option.noConfusion h, rfl, rfl, rfl⟩

/-- Witness for `buildIncidentPayload_keys`: a concrete delivery with no
incident record yields a payload without the `incident` key and with the
`event` key present. -/
theorem buildIncidentPayload_keys_witness :
    lookupKey (buildIncidentPayload ⟨⟨none⟩, ⟨"CREATED", "incident"⟩⟩)
      "incident" = none ∧
    (lookupKey (buildIncidentPayload ⟨⟨none⟩, ⟨"CREATED", "incident"⟩⟩)
      "event").isSome = true :=
  ⟨(buildIncidentPayload_keys _).1 rfl, (buildIncidentPayload_keys _).2.1⟩

theorem heap_read_write_ne (h : Heap) (r r' : Ref) (k : String) (v : Value)
    (hne : r ≠ r') :
    (h.write r' k v).read r = h.read r := by
  unfold Heap.write Heap.read
  simp only
  rw [List.getElem?_set_ne (fun he => hne he.symm)]

theorem heap_read_foldl_writes (l : List (String × Value)) (h : Heap)
    (n r : Ref) (hne : r ≠ n) :
    (l.foldl (fun acc kv => acc.write n kv.1 kv.2) h).read r = h.read r := by
  induction l generalizing h with
  | nil => rfl
  | cons kv rest ih =>
    rw [List.foldl_cons, ih, heap_read_write_ne _ _ _ _ _ hne]

theorem normalizeIncidentH_preserves (h : Heap) (raw r : Ref)
    (hr : r < h.maps.length) :
    ((normalizeIncidentH h raw).1).read r = h.read r := by
  have hne : r ≠ h.maps.length := Nat.ne_of_lt hr
  have h1read : (Heap.mk (h.maps ++ [[]])).read r = h.read r := by
    unfold Heap.read
    simp only
    rw [List.getElem?_append_left hr]
  have h2read : ∀ l : List (String × Value),
      (l.foldl (fun acc kv => acc.write h.maps.length kv.1 kv.2)
        (Heap.mk (h.maps ++ [[]]))).read r = h.read r := by
    intro l
    rw [heap_read_foldl_writes _ _ _ _ hne, h1read]
  unfold normalizeIncidentH
  simp only [Heap.alloc]
  repeat' split
  all_goals repeat rw [heap_read_write_ne _ _ _ _ _ hne]
  all_goals exact h2read _

/-- C8: `buildIncidentPayload`, replayed with its real map operations
against an explicit heap, never mutates the delivery's original
incident map: every write of `normalizeIncident` targets the freshly
allocated copy and every write of `buildIncidentPayload` targets the
freshly allocated result map, so the map behind the original reference
is unchanged — in particular a nested `severity` object stays nested in
the original. -/
theorem buildIncidentPayloadH_preserves_original
    (h : Heap) (r : Ref) (operation resourceType : String)
    (hr : r < h.maps.length) :
    ((buildIncidentPayloadH h operation resourceType (some r)).1).read r =
      h.read r := by
  have hne1 : r ≠ h.maps.length := Nat.ne_of_lt hr
  have hr1 : r <
      (Heap.mk (h.maps ++ [payloadHeader operation resourceType])).maps.length := by
    show r < (h.maps ++ [payloadHeader operation resourceType]).length
    simp only [List.length_append, List.length_cons, List.length_nil]
    exact Nat.lt_succ_of_lt hr
  unfold buildIncidentPayloadH
  simp only [Heap.alloc]
  rcases hn : normalizeIncidentH
      (Heap.mk (h.maps ++ [payloadHeader operation resourceType])) r with ⟨h2, n2⟩
  simp only [hn]
  rw [heap_read_write_ne _ _ _ _ _ hne1]
  have hstep := normalizeIncidentH_preserves
    (Heap.mk (h.maps ++ [payloadHeader operation resourceType])) r r hr1
  rw [hn] at hstep
  dsimp only at hstep
  rw [hstep]
  unfold Heap.read
  simp only
  rw [List.getElem?_append_left hr]

/-- Witness for `buildIncidentPayloadH_preserves_original`: starting
from a heap whose only map is `{severity: {slug: "SEV1"}}`, building the
payload leaves that original map with its severity still the nested
object. -/
theorem buildIncidentPayloadH_preserves_original_witness :
    ((buildIncidentPayloadH
        ⟨[[("severity", Value.obj [("slug", Value.str "SEV1")])]]⟩
        "CREATED" "incident" (some 0)).1).read 0 =
      [("severity", Value.obj [("slug", Value.str "SEV1")])] :=
  (buildIncidentPayloadH_preserves_original
    ⟨[[("severity", Value.obj [("slug", Value.str "SEV1")])]]⟩
    0 "CREATED" "incident" (by decide)).trans rfl

end FireHydrant
